import Mathlib

/-!
Shallow embedding of the admission/isolation core of the
Resilient-Multi-Tenant-API-with-the-Bulkhead-Pattern repository
(`src/bulkhead.js` and `src/index.js`), together with theorems checking
the natural-language specification against it.

Conventions of the embedding:
* JavaScript timestamps (`Date.now()` values) are `Nat`; the caller of an
  operation passes the current time explicitly.
* The protected asynchronous operation of the circuit breaker is modelled
  by its settled result, a value of `Except ε α` (`.ok` for a fulfilled
  promise, `.error` for a rejection).
* `execute` is split into the synchronous admission phase
  (`CircuitBreaker.executeBegin`, everything before `await fn()`) and the
  bookkeeping phase that runs when the operation settles
  (`CircuitBreaker.executeSettle`, the `try/catch/finally` tail), so that
  states in which a probe is still in flight are expressible.  `execute`
  composes the two; since `Date.now()` is read once during admission and
  once during failure bookkeeping, `execute` takes both instants.
-/

namespace Bulkhead

/-- The three states of the breaker, the string values of `this.state`. -/
inductive BreakerState
  | CLOSED
  | OPEN
  | HALF_OPEN
  deriving DecidableEq, Repr

/-- State of one `CircuitBreaker` instance (`src/bulkhead.js`, constructor):
`failureThreshold`/`resetTimeoutMs` are the immutable options, the rest are
the mutable fields `state`, `failures`, `nextAttempt`, `halfOpenInFlight`. -/
structure CircuitBreaker where
  failureThreshold : Nat
  resetTimeoutMs : Nat
  state : BreakerState
  failures : Nat
  nextAttempt : Nat
  halfOpenInFlight : Bool
  deriving DecidableEq, Repr

namespace CircuitBreaker

/-- `opts.failureThreshold || 5`: JavaScript `||` falls back to the default
when the option is absent (`none`) or falsy (`0`). -/
def orDefault (opt : Option Nat) (dflt : Nat) : Nat :=
  match opt with
  | none => dflt
  | some 0 => dflt
  | some n => n

/-- The constructor `new CircuitBreaker(options)`. -/
def mk0 (failureThreshold resetTimeoutMs : Option Nat) : CircuitBreaker :=
  { failureThreshold := orDefault failureThreshold 5
    resetTimeoutMs := orDefault resetTimeoutMs 15000
    state := .CLOSED
    failures := 0
    nextAttempt := 0
    halfOpenInFlight := false }

/-- `_transitionToOpen`, with `now` the value of `Date.now()` at the call. -/
def transitionToOpen (cb : CircuitBreaker) (now : Nat) : CircuitBreaker :=
  { cb with state := .OPEN, nextAttempt := now + cb.resetTimeoutMs }

/-- `_transitionToHalfOpen`. -/
def transitionToHalfOpen (cb : CircuitBreaker) : CircuitBreaker :=
  { cb with state := .HALF_OPEN, halfOpenInFlight := false }

/-- `_transitionToClosed`. -/
def transitionToClosed (cb : CircuitBreaker) : CircuitBreaker :=
  { cb with state := .CLOSED, failures := 0, halfOpenInFlight := false }

/-- `_canAttempt`: returns the boolean result together with the breaker
after the side effect (the `OPEN → HALF_OPEN` transition). -/
def canAttempt (cb : CircuitBreaker) (now : Nat) : Bool × CircuitBreaker :=
  match cb.state with
  | .OPEN =>
      if cb.nextAttempt ≤ now then (true, transitionToHalfOpen cb)
      else (false, cb)
  | .HALF_OPEN => (!cb.halfOpenInFlight, cb)
  | .CLOSED => (true, cb)

/-- Admission phase of `execute` (lines 52–58): the `_canAttempt` gate and,
when the state is `HALF_OPEN`, marking the probe in flight.  Returns
whether the protected operation is invoked, and the breaker state at the
moment `fn()` starts. -/
def executeBegin (cb : CircuitBreaker) (now : Nat) : Bool × CircuitBreaker :=
  let (ok, cb1) := canAttempt cb now
  if ok then
    if cb1.state = .HALF_OPEN then (true, { cb1 with halfOpenInFlight := true })
    else (true, cb1)
  else (false, cb1)

/-- Settlement phase of `execute` (the `try`/`catch`/`finally`, lines
60–74), given whether `fn()` succeeded and `Date.now()` at settlement. -/
def executeSettle (cb : CircuitBreaker) (success : Bool) (now : Nat) : CircuitBreaker :=
  let cb2 :=
    if success then transitionToClosed cb
    else
      let cb1 := { cb with failures := min (cb.failures + 1) cb.failureThreshold }
      if cb1.state = .HALF_OPEN ∨ cb1.failureThreshold ≤ cb1.failures then
        transitionToOpen cb1 now
      else cb1
  -- the `finally` block
  if cb2.state = .HALF_OPEN then { cb2 with halfOpenInFlight := false } else cb2

/-- Settled result of `execute`: the distinguished `CircuitOpenError`, the
operation's fulfilled value, or the operation's own error re-thrown. -/
inductive ExecResult (α ε : Type)
  | ok (a : α)
  | circuitOpen
  | opError (e : ε)
  deriving DecidableEq, Repr

/-- Observable effect of one whole `execute(fn)` call: its settled result,
the breaker afterwards, and whether `fn` was invoked at all. -/
structure ExecOut (α ε : Type) where
  result : ExecResult α ε
  breaker : CircuitBreaker
  invoked : Bool
  deriving DecidableEq, Repr

/-- One whole `execute(fn)` call: admission at time `now0`, then — when
admitted — the operation settles as `fn` and bookkeeping runs at time
`now1`. -/
def execute {α ε : Type} (cb : CircuitBreaker) (now0 now1 : Nat)
    (fn : Except ε α) : ExecOut α ε :=
  let (ok, cb1) := executeBegin cb now0
  if ok then
    match fn with
    | .ok a => ⟨.ok a, executeSettle cb1 true now1, true⟩
    | .error e => ⟨.opError e, executeSettle cb1 false now1, true⟩
  else ⟨.circuitOpen, cb1, false⟩

/-- A sequence of calls whose protected operation always fails with `e`,
each call made (and settled) at the corresponding time in `times`. -/
def failMany (e : ε) : CircuitBreaker → List Nat → CircuitBreaker
  | cb, [] => cb
  | cb, t :: ts => failMany e (@execute Unit ε cb t t (Except.error e)).breaker ts

end CircuitBreaker

/-- State of one `BulkheadQueue` instance (`src/bulkhead.js`, lines 85–90):
`poolSize` immutable, `active` the running-task counter, `queue` the FIFO
list of deferred `runTask` closures.  `τ` identifies the queued tasks. -/
structure BulkheadQueue (τ : Type) where
  poolSize : Nat
  active : Nat
  queue : List τ
  deriving DecidableEq, Repr

namespace BulkheadQueue

/-- The constructor `new BulkheadQueue(poolSize)`. -/
def mk0 (τ : Type) (poolSize : Nat) : BulkheadQueue τ :=
  { poolSize := poolSize, active := 0, queue := [] }

/-- `run(task)` (lines 92–112), up to the point the submitted task either
starts or is parked: if `active < poolSize` the closure runs at once
(`active += 1` and the task begins executing, reported as `some task`);
otherwise the closure is pushed onto the back of `queue` (`none`). -/
def run (b : BulkheadQueue τ) (task : τ) : BulkheadQueue τ × Option τ :=
  if b.active < b.poolSize then
    ({ b with active := b.active + 1 }, some task)
  else
    ({ b with queue := b.queue ++ [task] }, none)

/-- `_dequeue()` (lines 114–125): no queued closure, or no free slot, does
nothing; otherwise the head closure is shifted off and run
(`active += 1`, reported as `some head`). -/
def dequeue (b : BulkheadQueue τ) : BulkheadQueue τ × Option τ :=
  match b.queue with
  | [] => (b, none)
  | next :: rest =>
      if b.poolSize ≤ b.active then (b, none)
      else ({ b with active := b.active + 1, queue := rest }, some next)

/-- The `finally` of a running task (lines 100–103): `active -= 1` then
`_dequeue()`. -/
def complete (b : BulkheadQueue τ) : BulkheadQueue τ × Option τ :=
  dequeue { b with active := b.active - 1 }

/-- Externally visible events driving one bulkhead queue: a task
submission (`run`) or the completion of a running task. -/
inductive BEvent (τ : Type)
  | submit (task : τ)
  | complete
  deriving DecidableEq, Repr

/-- One event applied to the queue state; `some t` reports that task `t`
began executing during the event. -/
def stepB (b : BulkheadQueue τ) : BEvent τ → BulkheadQueue τ × Option τ
  | .submit t => run b t
  | .complete => complete b

/-- A whole event trace; the second component lists, in order, the tasks
that began executing. -/
def runTrace (b : BulkheadQueue τ) : List (BEvent τ) → BulkheadQueue τ × List τ
  | [] => (b, [])
  | e :: es =>
      let s := stepB b e
      let r := runTrace s.1 es
      (r.1, s.2.toList ++ r.2)

/-- The tasks a trace submits, in submission order. -/
def submits : List (BEvent τ) → List τ
  | [] => []
  | .submit t :: es => t :: submits es
  | .complete :: es => submits es

/-- A trace is valid when every completion event is the completion of a
task that is actually running (`active ≥ 1` at that moment); this is true
of every real execution, where completions are produced by the running
tasks themselves. -/
def validTrace (b : BulkheadQueue τ) : List (BEvent τ) → Bool
  | [] => true
  | .submit t :: es => validTrace (stepB b (.submit t)).1 es
  | .complete :: es => decide (1 ≤ b.active) && validTrace (stepB b .complete).1 es

/-- Invariant of one bulkhead queue: the active counter never exceeds the
pool size, and a non-empty pending queue means the pool is saturated. -/
def Inv (b : BulkheadQueue τ) : Prop :=
  b.active ≤ b.poolSize ∧ (b.queue ≠ [] → b.active = b.poolSize)

end BulkheadQueue

/-- Per-tier rate-limiter state (`src/index.js`, line 43). -/
structure RateState where
  windowStart : Nat
  count : Nat
  deriving DecidableEq, Repr

/-- Result object of `checkRateLimit`: the JavaScript object has a `limit`
field only on the quota-limited paths, modelled by `Option`. -/
structure RLResult where
  allowed : Bool
  limit : Option Nat
  deriving DecidableEq, Repr

/-- `checkRateLimit(tier)` (`src/index.js`, lines 62–81), with the tier's
configured quota, the tier's mutable window state and `Date.now()` passed
explicitly.  A `none` quota is the configured `null`; JavaScript
`if (!limit)` also treats a configured `0` as unlimited. -/
def checkRateLimit (limit : Option Nat) (st : RateState) (now : Nat) :
    RLResult × RateState :=
  match limit with
  | none => (⟨true, none⟩, st)
  | some l =>
      if l = 0 then (⟨true, none⟩, st)
      else
        let st1 := if 60000 ≤ now - st.windowStart then ⟨now, 0⟩ else st
        if l ≤ st1.count then (⟨false, some l⟩, st1)
        else (⟨true, some l⟩, ⟨st1.windowStart, st1.count + 1⟩)

/-- A sequence of admission checks at the given times; returns the final
window state and the list of `allowed` results in order. -/
def admitSeq (limit : Option Nat) (st : RateState) :
    List Nat → RateState × List Bool
  | [] => (st, [])
  | t :: ts =>
      let c := checkRateLimit limit st t
      let r := admitSeq limit c.2 ts
      (r.1, c.1.allowed :: r.2)

/-- The four caller-distinguishable settled outcomes of one `/api/data`
request (`src/index.js`, lines 94–130): HTTP 200 with the payload, 429
with the limit, 503 `Circuit breaker open`, 503 `Service unavailable`. -/
inductive HandleOutcome (α ε : Type)
  | success (payload : α)
  | rateLimited (limit : Option Nat)
  | circuitOpenRejected
  | opFailure (err : ε)
  deriving DecidableEq, Repr

/-- Observable effect of one `/api/data` request on one tier's resources.
`outcome = none` means the task was parked behind a full bulkhead and its
promise settles only after later completions dequeue it. -/
structure HandleOut (α ε : Type) where
  outcome : Option (HandleOutcome α ε)
  rate : RateState
  breaker : CircuitBreaker
  bulkhead : BulkheadQueue (Except ε α)
  invokedOp : Bool
  deriving Repr

/-- The `/api/data` handler (`src/index.js`, lines 87–131) for a resolved
tier, acting on that tier's rate state, breaker and bulkhead: the rate
gate runs first and returns 429 on rejection before the bulkhead or the
breaker is touched; otherwise the closure wrapping
`circuitBreaker.execute(op)` is submitted to `bulkhead.run`.  When the
bulkhead starts it at once the breaker call settles as `op` and the task's
`finally` (`complete`) runs; the result of each branch is classified the
way the handler's `try/catch` maps it to a response. -/
def handleReq {α ε : Type} (limit : Option Nat) (st : RateState)
    (cb : CircuitBreaker) (bq : BulkheadQueue (Except ε α)) (now : Nat)
    (op : Except ε α) : HandleOut α ε :=
  let rl := checkRateLimit limit st now
  if rl.1.allowed then
    match BulkheadQueue.run bq op with
    | (bq1, some task) =>
        let ex := CircuitBreaker.execute cb now now task
        let outcome :=
          match ex.result with
          | .ok a => HandleOutcome.success a
          | .circuitOpen => HandleOutcome.circuitOpenRejected
          | .opError e => HandleOutcome.opFailure e
        ⟨some outcome, rl.2, ex.breaker, (BulkheadQueue.complete bq1).1, ex.invoked⟩
    | (bq1, none) => ⟨none, rl.2, cb, bq1, false⟩
  else ⟨some (.rateLimited rl.1.limit), rl.2, cb, bq, false⟩

/-! ## Circuit breaker: unfolding lemmas -/

/-- Unfolding `execute` into its admission and settlement phases. -/
theorem CircuitBreaker.execute_eq {α ε : Type} (cb : CircuitBreaker) (n0 n1 : Nat)
    (fn : Except ε α) :
    CircuitBreaker.execute cb n0 n1 fn =
      if (CircuitBreaker.executeBegin cb n0).1 then
        match fn with
        | .ok a =>
            ⟨.ok a, CircuitBreaker.executeSettle (CircuitBreaker.executeBegin cb n0).2 true n1, true⟩
        | .error e =>
            ⟨.opError e,
              CircuitBreaker.executeSettle (CircuitBreaker.executeBegin cb n0).2 false n1, true⟩
      else ⟨.circuitOpen, (CircuitBreaker.executeBegin cb n0).2, false⟩ := rfl

/-- A `CLOSED` breaker admits the call and is untouched by admission. -/
theorem CircuitBreaker.executeBegin_closed (cb : CircuitBreaker) (n : Nat)
    (h : cb.state = .CLOSED) :
    CircuitBreaker.executeBegin cb n = (true, cb) := by
  simp [CircuitBreaker.executeBegin, CircuitBreaker.canAttempt, h]

/-- An `OPEN` breaker before its reset instant rejects and is untouched. -/
theorem CircuitBreaker.executeBegin_open_early (cb : CircuitBreaker) (n : Nat)
    (h : cb.state = .OPEN) (hn : n < cb.nextAttempt) :
    CircuitBreaker.executeBegin cb n = (false, cb) := by
  simp [CircuitBreaker.executeBegin, CircuitBreaker.canAttempt, h, Nat.not_le.mpr hn]

/-- An `OPEN` breaker at or past its reset instant becomes `HALF_OPEN` and
admits the call as the probe, marking it in flight. -/
theorem CircuitBreaker.executeBegin_open_probe (cb : CircuitBreaker) (n : Nat)
    (h : cb.state = .OPEN) (hn : cb.nextAttempt ≤ n) :
    CircuitBreaker.executeBegin cb n =
      (true, { cb with state := .HALF_OPEN, halfOpenInFlight := true }) := by
  simp [CircuitBreaker.executeBegin, CircuitBreaker.canAttempt,
    CircuitBreaker.transitionToHalfOpen, h, hn]

/-- A `HALF_OPEN` breaker with the probe in flight rejects, untouched. -/
theorem CircuitBreaker.executeBegin_half_busy (cb : CircuitBreaker) (n : Nat)
    (h : cb.state = .HALF_OPEN) (hf : cb.halfOpenInFlight = true) :
    CircuitBreaker.executeBegin cb n = (false, cb) := by
  simp [CircuitBreaker.executeBegin, CircuitBreaker.canAttempt, h, hf]

/-- A `HALF_OPEN` breaker with no probe in flight admits the call and marks
the probe in flight. -/
theorem CircuitBreaker.executeBegin_half_free (cb : CircuitBreaker) (n : Nat)
    (h : cb.state = .HALF_OPEN) (hf : cb.halfOpenInFlight = false) :
    CircuitBreaker.executeBegin cb n = (true, { cb with halfOpenInFlight := true }) := by
  simp [CircuitBreaker.executeBegin, CircuitBreaker.canAttempt, h, hf]

/-- Successful settlement always lands in `CLOSED` with `failures = 0` and
the probe flag cleared. -/
theorem CircuitBreaker.executeSettle_success (cb : CircuitBreaker) (n : Nat) :
    CircuitBreaker.executeSettle cb true n =
      { cb with state := .CLOSED, failures := 0, halfOpenInFlight := false } := rfl

/-- Failed settlement of a `HALF_OPEN` probe: saturating failure increment,
transition to `OPEN` with a fresh `nextAttempt`; the `finally` guard sees
state `OPEN` and therefore does not clear the probe flag. -/
theorem CircuitBreaker.executeSettle_fail_half (cb : CircuitBreaker) (n : Nat)
    (h : cb.state = .HALF_OPEN) :
    CircuitBreaker.executeSettle cb false n =
      { cb with
        state := .OPEN,
        failures := min (cb.failures + 1) cb.failureThreshold,
        nextAttempt := n + cb.resetTimeoutMs } := by
  simp [CircuitBreaker.executeSettle, CircuitBreaker.transitionToOpen, h]

/-- Failed settlement in `CLOSED` at the threshold: transition to `OPEN`. -/
theorem CircuitBreaker.executeSettle_fail_closed_hit (cb : CircuitBreaker) (n : Nat)
    (h : cb.state = .CLOSED) (hge : cb.failureThreshold ≤ cb.failures + 1) :
    CircuitBreaker.executeSettle cb false n =
      { cb with
        state := .OPEN,
        failures := cb.failureThreshold,
        nextAttempt := n + cb.resetTimeoutMs } := by
  have hmin : min (cb.failures + 1) cb.failureThreshold = cb.failureThreshold :=
    Nat.min_eq_right hge
  simp [CircuitBreaker.executeSettle, CircuitBreaker.transitionToOpen, h, hmin, hge]

/-- Failed settlement in `CLOSED` below the threshold: stay `CLOSED`. -/
theorem CircuitBreaker.executeSettle_fail_closed_miss (cb : CircuitBreaker) (n : Nat)
    (h : cb.state = .CLOSED) (hlt : cb.failures + 1 < cb.failureThreshold) :
    CircuitBreaker.executeSettle cb false n = { cb with failures := cb.failures + 1 } := by
  have hmin : min (cb.failures + 1) cb.failureThreshold = cb.failures + 1 :=
    Nat.min_eq_left (Nat.le_of_lt hlt)
  simp [CircuitBreaker.executeSettle, h, hmin, Nat.not_le.mpr hlt]

/-- A failing call on an `OPEN` breaker leaves it `OPEN`: either it is
rejected untouched, or it is admitted as the probe and the failed probe
re-opens the breaker. -/
theorem execute_error_open {ε : Type} (cb : CircuitBreaker) (t : Nat) (e : ε)
    (h : cb.state = .OPEN) :
    (@CircuitBreaker.execute Unit ε cb t t (Except.error e)).breaker.state = .OPEN := by
  rcases Nat.lt_or_ge t cb.nextAttempt with hn | hn
  · rw [CircuitBreaker.execute_eq, CircuitBreaker.executeBegin_open_early cb t h hn]
    simpa using h
  · rw [CircuitBreaker.execute_eq, CircuitBreaker.executeBegin_open_probe cb t h hn]
    simp [CircuitBreaker.executeSettle_fail_half]

/-- Failing calls never close an `OPEN` breaker. -/
theorem failMany_open {ε : Type} (e : ε) (ts : List Nat) :
    ∀ cb : CircuitBreaker, cb.state = .OPEN →
      (CircuitBreaker.failMany e cb ts).state = .OPEN := by
  induction ts with
  | nil => intro cb h; exact h
  | cons t ts ih =>
      intro cb h
      simp only [CircuitBreaker.failMany]
      exact ih _ (execute_error_open cb t e h)

/-- Enough consecutive failures from a `CLOSED` breaker open it. -/
theorem failMany_closed_reaches_open {ε : Type} (e : ε) (ts : List Nat) :
    ∀ cb : CircuitBreaker, cb.state = .CLOSED →
      cb.failures < cb.failureThreshold →
      cb.failureThreshold ≤ cb.failures + ts.length →
      (CircuitBreaker.failMany e cb ts).state = .OPEN := by
  induction ts with
  | nil =>
      intro cb h hlt hge
      simp only [List.length_nil, Nat.add_zero] at hge
      omega
  | cons t ts ih =>
      intro cb h hlt hge
      simp only [CircuitBreaker.failMany]
      by_cases hhit : cb.failureThreshold ≤ cb.failures + 1
      · have hb : (@CircuitBreaker.execute Unit ε cb t t (Except.error e)).breaker.state
            = .OPEN := by
          rw [CircuitBreaker.execute_eq, CircuitBreaker.executeBegin_closed cb t h]
          simp [CircuitBreaker.executeSettle_fail_closed_hit cb t h hhit]
        exact failMany_open e ts _ hb
      · push_neg at hhit
        have hb : (@CircuitBreaker.execute Unit ε cb t t (Except.error e)).breaker =
            { cb with failures := cb.failures + 1 } := by
          rw [CircuitBreaker.execute_eq, CircuitBreaker.executeBegin_closed cb t h]
          simp [CircuitBreaker.executeSettle_fail_closed_miss cb t h hhit]
        rw [hb]
        refine ih _ h ?_ ?_ <;> simp only [List.length_cons] at hge ⊢ <;> omega

/-! ## Claims about the circuit breaker -/

/-- Claim C1: in state `CLOSED`, each failed invocation sets
`failures = min(failures+1, threshold)`; when the updated count reaches
the threshold the breaker transitions to `OPEN` with
`nextAttemptAt = now + resetTimeout`, and otherwise stays `CLOSED`; hence
after `threshold` consecutive failures with no intervening success the
state is `OPEN`. -/
theorem claim_c1_closed_failure {ε : Type} (cb : CircuitBreaker) (e : ε) (n0 n1 : Nat)
    (hc : cb.state = .CLOSED) :
    ((@CircuitBreaker.execute Unit ε cb n0 n1 (Except.error e)).breaker.failures
        = min (cb.failures + 1) cb.failureThreshold) ∧
    (cb.failureThreshold ≤ cb.failures + 1 →
      (@CircuitBreaker.execute Unit ε cb n0 n1 (Except.error e)).breaker.state = .OPEN ∧
      (@CircuitBreaker.execute Unit ε cb n0 n1 (Except.error e)).breaker.nextAttempt
        = n1 + cb.resetTimeoutMs) ∧
    (cb.failures + 1 < cb.failureThreshold →
      (@CircuitBreaker.execute Unit ε cb n0 n1 (Except.error e)).breaker.state = .CLOSED) ∧
    (∀ ts : List Nat, cb.failures = 0 → 1 ≤ cb.failureThreshold →
      ts.length = cb.failureThreshold →
      (CircuitBreaker.failMany e cb ts).state = .OPEN) := by
  refine ⟨?_, ?_, ?_, ?_⟩
  · rw [CircuitBreaker.execute_eq, CircuitBreaker.executeBegin_closed cb n0 hc]
    by_cases hhit : cb.failureThreshold ≤ cb.failures + 1
    · simp [CircuitBreaker.executeSettle_fail_closed_hit cb n1 hc hhit,
        Nat.min_eq_right hhit]
    · push_neg at hhit
      simp [CircuitBreaker.executeSettle_fail_closed_miss cb n1 hc hhit,
        Nat.min_eq_left (Nat.le_of_lt hhit)]
  · intro hhit
    rw [CircuitBreaker.execute_eq, CircuitBreaker.executeBegin_closed cb n0 hc]
    simp [CircuitBreaker.executeSettle_fail_closed_hit cb n1 hc hhit]
  · intro hlt
    rw [CircuitBreaker.execute_eq, CircuitBreaker.executeBegin_closed cb n0 hc]
    simp [CircuitBreaker.executeSettle_fail_closed_miss cb n1 hc hlt, hc]
  · intro ts h0 h1 hlen
    exact failMany_closed_reaches_open e ts cb hc (by omega) (by omega)

/-- Witness for C1: a breaker one failure below the default threshold opens
on the next failure with `nextAttemptAt = now + 15000`, and a fresh breaker
opens after five consecutive failures. -/
theorem claim_c1_witness :
    (@CircuitBreaker.execute Unit Nat ⟨5, 15000, .CLOSED, 4, 0, false⟩ 0 7
        (Except.error 3)).breaker.state = .OPEN ∧
    (@CircuitBreaker.execute Unit Nat ⟨5, 15000, .CLOSED, 4, 0, false⟩ 0 7
        (Except.error 3)).breaker.nextAttempt = 7 + 15000 ∧
    (CircuitBreaker.failMany 3 ⟨5, 15000, .CLOSED, 0, 0, false⟩ [1, 2, 3, 4, 5]).state
      = .OPEN := by
  refine ⟨?_, ?_, ?_⟩
  · exact ((claim_c1_closed_failure ⟨5, 15000, .CLOSED, 4, 0, false⟩ 3 0 7 rfl).2.1
      (by decide)).1
  · exact ((claim_c1_closed_failure ⟨5, 15000, .CLOSED, 4, 0, false⟩ 3 0 7 rfl).2.1
      (by decide)).2
  · exact (claim_c1_closed_failure ⟨5, 15000, .CLOSED, 0, 0, false⟩ 3 0 7 rfl).2.2.2
      [1, 2, 3, 4, 5] rfl (by decide) rfl

/-- Claim C2: in state `OPEN`, a call before `nextAttemptAt` is rejected
with the distinguished circuit-open result, without invoking the operation
and with the breaker (in particular `failures`) unchanged; a call at or
after `nextAttemptAt` transitions the breaker to `HALF_OPEN` (clearing the
in-flight probe flag) and is itself allowed through to the operation. -/
theorem claim_c2_open_gate {α ε : Type} (cb : CircuitBreaker) (n0 n1 : Nat)
    (fn : Except ε α) (h : cb.state = .OPEN) :
    (n0 < cb.nextAttempt →
      CircuitBreaker.execute cb n0 n1 fn = ⟨.circuitOpen, cb, false⟩) ∧
    (cb.nextAttempt ≤ n0 →
      CircuitBreaker.canAttempt cb n0 = (true, CircuitBreaker.transitionToHalfOpen cb) ∧
      (CircuitBreaker.canAttempt cb n0).2.state = .HALF_OPEN ∧
      (CircuitBreaker.canAttempt cb n0).2.halfOpenInFlight = false ∧
      (CircuitBreaker.executeBegin cb n0) =
        (true, { cb with state := .HALF_OPEN, halfOpenInFlight := true }) ∧
      (CircuitBreaker.execute cb n0 n1 fn).invoked = true) := by
  constructor
  · intro hn
    rw [CircuitBreaker.execute_eq, CircuitBreaker.executeBegin_open_early cb n0 h hn]
    simp
  · intro hn
    have hca : CircuitBreaker.canAttempt cb n0 =
        (true, CircuitBreaker.transitionToHalfOpen cb) := by
      simp [CircuitBreaker.canAttempt, h, hn]
    refine ⟨hca, ?_, ?_, CircuitBreaker.executeBegin_open_probe cb n0 h hn, ?_⟩
    · simp [hca, CircuitBreaker.transitionToHalfOpen]
    · simp [hca, CircuitBreaker.transitionToHalfOpen]
    · rw [CircuitBreaker.execute_eq, CircuitBreaker.executeBegin_open_probe cb n0 h hn]
      cases fn <;> simp

/-- Witness for C2: an `OPEN` breaker with `nextAttemptAt = 100` rejects a
call at time 50 untouched, and admits the call at time 100 as the
half-open probe. -/
theorem claim_c2_witness :
    (@CircuitBreaker.execute Nat Nat ⟨5, 15000, .OPEN, 5, 100, false⟩ 50 50
        (Except.ok 1)) = ⟨.circuitOpen, ⟨5, 15000, .OPEN, 5, 100, false⟩, false⟩ ∧
    (CircuitBreaker.executeBegin ⟨5, 15000, .OPEN, 5, 100, false⟩ 100) =
      (true, ⟨5, 15000, .HALF_OPEN, 5, 100, true⟩) ∧
    (@CircuitBreaker.execute Nat Nat ⟨5, 15000, .OPEN, 5, 100, false⟩ 100 100
        (Except.ok 1)).invoked = true := by
  refine ⟨?_, ?_, ?_⟩
  · exact (claim_c2_open_gate ⟨5, 15000, .OPEN, 5, 100, false⟩ 50 50
      (Except.ok 1) rfl).1 (by decide)
  · exact ((claim_c2_open_gate (α := Nat) (ε := Nat) ⟨5, 15000, .OPEN, 5, 100, false⟩ 100 100
      (Except.ok 1) rfl).2 (by decide)).2.2.2.1
  · exact ((claim_c2_open_gate ⟨5, 15000, .OPEN, 5, 100, false⟩ 100 100
      (Except.ok 1) rfl).2 (by decide)).2.2.2.2

/-- Claim C3: in state `HALF_OPEN`, a call while the probe is in flight is
rejected with the circuit-open result, without invoking the operation and
with the breaker (in particular `failures`) unchanged; with no probe in
flight the call is admitted and marked as the in-flight probe; a
successful probe transitions to `CLOSED` with `failures = 0`, and a failed
probe transitions to `OPEN` with a freshly computed `nextAttemptAt`. -/
theorem claim_c3_half_open {α ε : Type} (cb : CircuitBreaker) (n0 n1 : Nat)
    (a : α) (e : ε) (h : cb.state = .HALF_OPEN) :
    (cb.halfOpenInFlight = true → ∀ fn : Except ε α,
      CircuitBreaker.execute cb n0 n1 fn = ⟨.circuitOpen, cb, false⟩) ∧
    (cb.halfOpenInFlight = false →
      CircuitBreaker.executeBegin cb n0 = (true, { cb with halfOpenInFlight := true }) ∧
      @CircuitBreaker.execute α ε cb n0 n1 (Except.ok a) =
        ⟨.ok a, { cb with state := .CLOSED, failures := 0, halfOpenInFlight := false },
          true⟩ ∧
      @CircuitBreaker.execute α ε cb n0 n1 (Except.error e) =
        ⟨.opError e,
          { cb with
            state := .OPEN,
            failures := min (cb.failures + 1) cb.failureThreshold,
            nextAttempt := n1 + cb.resetTimeoutMs,
            halfOpenInFlight := true }, true⟩) := by
  constructor
  · intro hf fn
    rw [CircuitBreaker.execute_eq, CircuitBreaker.executeBegin_half_busy cb n0 h hf]
    simp
  · intro hf
    refine ⟨CircuitBreaker.executeBegin_half_free cb n0 h hf, ?_, ?_⟩
    · rw [CircuitBreaker.execute_eq, CircuitBreaker.executeBegin_half_free cb n0 h hf]
      simp [CircuitBreaker.executeSettle_success]
    · rw [CircuitBreaker.execute_eq, CircuitBreaker.executeBegin_half_free cb n0 h hf]
      have hH : ({ cb with halfOpenInFlight := true } : CircuitBreaker).state
          = .HALF_OPEN := h
      simp [CircuitBreaker.executeSettle_fail_half _ n1 hH]

/-- Witness for C3: with the probe in flight the breaker rejects untouched;
with no probe in flight a successful probe closes the breaker with
`failures = 0` and a failed probe re-opens it with
`nextAttemptAt = 100 + 15000`. -/
theorem claim_c3_witness :
    (@CircuitBreaker.execute Nat Nat ⟨5, 15000, .HALF_OPEN, 3, 40, true⟩ 100 100
        (Except.ok 1)) = ⟨.circuitOpen, ⟨5, 15000, .HALF_OPEN, 3, 40, true⟩, false⟩ ∧
    (@CircuitBreaker.execute Nat Nat ⟨5, 15000, .HALF_OPEN, 3, 40, false⟩ 100 100
        (Except.ok 1)) = ⟨.ok 1, ⟨5, 15000, .CLOSED, 0, 40, false⟩, true⟩ ∧
    (@CircuitBreaker.execute Nat Nat ⟨5, 15000, .HALF_OPEN, 3, 40, false⟩ 100 100
        (Except.error 9)) = ⟨.opError 9, ⟨5, 15000, .OPEN, 4, 100 + 15000, true⟩, true⟩ := by
  refine ⟨?_, ?_, ?_⟩
  · exact (claim_c3_half_open ⟨5, 15000, .HALF_OPEN, 3, 40, true⟩ 100 100 1 9 rfl).1
      rfl (Except.ok 1)
  · exact ((claim_c3_half_open ⟨5, 15000, .HALF_OPEN, 3, 40, false⟩ 100 100 1 9 rfl).2
      rfl).2.1
  · exact ((claim_c3_half_open ⟨5, 15000, .HALF_OPEN, 3, 40, false⟩ 100 100 1 9 rfl).2
      rfl).2.2

/-- Claim C7 as stated is false at this input: a `HALF_OPEN` breaker with
no probe in flight admits a call that invokes the operation, the operation
fails, and after `execute` settles `halfOpenInFlight` is `true`, not
`false` — the `finally` guard tests the state after the transition to
`OPEN` and so does not clear the flag. -/
theorem claim_c7_counterexample :
    (@CircuitBreaker.execute Unit Unit ⟨5, 15000, .HALF_OPEN, 2, 0, false⟩ 100 100
        (Except.error ())).invoked = true ∧
    (@CircuitBreaker.execute Unit Unit ⟨5, 15000, .HALF_OPEN, 2, 0, false⟩ 100 100
        (Except.error ())).breaker.state = .OPEN ∧
    (@CircuitBreaker.execute Unit Unit ⟨5, 15000, .HALF_OPEN, 2, 0, false⟩ 100 100
        (Except.error ())).breaker.halfOpenInFlight = true := by decide

/-- When an admitted call leaves `executeBegin` with state `HALF_OPEN`,
the in-flight probe flag has been set. -/
theorem executeBegin_half_flag (cb : CircuitBreaker) (n : Nat)
    (hadm : (CircuitBreaker.executeBegin cb n).1 = true)
    (hH : (CircuitBreaker.executeBegin cb n).2.state = .HALF_OPEN) :
    (CircuitBreaker.executeBegin cb n).2.halfOpenInFlight = true := by
  cases hs : cb.state with
  | CLOSED =>
      rw [CircuitBreaker.executeBegin_closed cb n hs] at hH
      simp only at hH
      rw [hs] at hH
      cases hH
  | OPEN =>
      rcases Nat.lt_or_ge n cb.nextAttempt with hn | hn
      · rw [CircuitBreaker.executeBegin_open_early cb n hs hn] at hadm
        cases hadm
      · rw [CircuitBreaker.executeBegin_open_probe cb n hs hn]
  | HALF_OPEN =>
      cases hf : cb.halfOpenInFlight with
      | false => rw [CircuitBreaker.executeBegin_half_free cb n hs hf]
      | true =>
          rw [CircuitBreaker.executeBegin_half_busy cb n hs hf] at hadm
          cases hadm

/-- Claim C7 amended: for an invoked call, the probe flag is cleared on the
success path; on the failure path the `finally` clears it only when the
state after bookkeeping is still `HALF_OPEN`, so a failed half-open probe
leaves the breaker `OPEN` with the flag still set (it is reset on the next
transition into `HALF_OPEN`), while a failure from `CLOSED` leaves the
flag unchanged. -/
theorem claim_c7_flag_after_settle {α ε : Type} (cb : CircuitBreaker) (n0 n1 : Nat)
    (a : α) (e : ε) (hadm : (CircuitBreaker.executeBegin cb n0).1 = true) :
    ((@CircuitBreaker.execute α ε cb n0 n1 (Except.ok a)).breaker.halfOpenInFlight
        = false) ∧
    ((CircuitBreaker.executeBegin cb n0).2.state = .HALF_OPEN →
      (@CircuitBreaker.execute α ε cb n0 n1 (Except.error e)).breaker.state = .OPEN ∧
      (@CircuitBreaker.execute α ε cb n0 n1 (Except.error e)).breaker.halfOpenInFlight
        = true) ∧
    ((CircuitBreaker.executeBegin cb n0).2.state = .CLOSED →
      (@CircuitBreaker.execute α ε cb n0 n1 (Except.error e)).breaker.halfOpenInFlight
        = (CircuitBreaker.executeBegin cb n0).2.halfOpenInFlight) := by
  refine ⟨?_, ?_, ?_⟩
  · rw [CircuitBreaker.execute_eq]
    simp [hadm, CircuitBreaker.executeSettle_success]
  · intro hH
    have hflag := executeBegin_half_flag cb n0 hadm hH
    rw [CircuitBreaker.execute_eq]
    simp [hadm, CircuitBreaker.executeSettle_fail_half _ n1 hH, hflag]
  · intro hC
    rw [CircuitBreaker.execute_eq]
    by_cases hhit : (CircuitBreaker.executeBegin cb n0).2.failureThreshold
        ≤ (CircuitBreaker.executeBegin cb n0).2.failures + 1
    · simp [hadm, CircuitBreaker.executeSettle_fail_closed_hit _ n1 hC hhit]
    · push_neg at hhit
      simp [hadm, CircuitBreaker.executeSettle_fail_closed_miss _ n1 hC hhit]

/-- Witness for the amended C7: the counterexample breaker, run through the
theorem — after the failed probe the state is `OPEN` and the flag is still
set; after a successful probe the flag is cleared. -/
theorem claim_c7_witness :
    (@CircuitBreaker.execute Unit Unit ⟨5, 15000, .HALF_OPEN, 2, 0, false⟩ 100 100
        (Except.ok ())).breaker.halfOpenInFlight = false ∧
    (@CircuitBreaker.execute Unit Unit ⟨5, 15000, .HALF_OPEN, 2, 0, false⟩ 100 100
        (Except.error ())).breaker.state = .OPEN ∧
    (@CircuitBreaker.execute Unit Unit ⟨5, 15000, .HALF_OPEN, 2, 0, false⟩ 100 100
        (Except.error ())).breaker.halfOpenInFlight = true := by
  refine ⟨?_, ?_, ?_⟩
  · exact (claim_c7_flag_after_settle ⟨5, 15000, .HALF_OPEN, 2, 0, false⟩ 100 100 () ()
      (by decide)).1
  · exact ((claim_c7_flag_after_settle ⟨5, 15000, .HALF_OPEN, 2, 0, false⟩ 100 100 () ()
      (by decide)).2.1 (by decide)).1
  · exact ((claim_c7_flag_after_settle ⟨5, 15000, .HALF_OPEN, 2, 0, false⟩ 100 100 () ()
      (by decide)).2.1 (by decide)).2

/-- Claim C9 (implicit): every transition into `HALF_OPEN` goes through
`_transitionToHalfOpen`, which resets the in-flight flag to `false`
whatever its previous value; entering `HALF_OPEN` from another state via
`_canAttempt` therefore clears the flag, and a stale `true` flag left from
a failed probe while the state is `OPEN` can never block the next probe:
once the reset timeout has elapsed the call is admitted and correctly
recorded as the new in-flight probe. -/
theorem claim_c9_half_open_entry (cb : CircuitBreaker) (now : Nat) :
    (CircuitBreaker.transitionToHalfOpen cb =
      { cb with state := .HALF_OPEN, halfOpenInFlight := false }) ∧
    (cb.state ≠ .HALF_OPEN → (CircuitBreaker.canAttempt cb now).2.state = .HALF_OPEN →
      (CircuitBreaker.canAttempt cb now).2.halfOpenInFlight = false) ∧
    (cb.state = .OPEN → cb.halfOpenInFlight = true → cb.nextAttempt ≤ now →
      (CircuitBreaker.executeBegin cb now).1 = true ∧
      (CircuitBreaker.executeBegin cb now).2.state = .HALF_OPEN ∧
      (CircuitBreaker.executeBegin cb now).2.halfOpenInFlight = true) := by
  refine ⟨rfl, ?_, ?_⟩
  · intro hne hH
    cases hs : cb.state with
    | CLOSED =>
        simp only [CircuitBreaker.canAttempt, hs] at hH
        exact absurd hH (by decide)
    | OPEN =>
        rcases Nat.lt_or_ge now cb.nextAttempt with hn | hn
        · simp only [CircuitBreaker.canAttempt, hs, Nat.not_le.mpr hn, if_false] at hH
          exact absurd hH (by decide)
        · simp [CircuitBreaker.canAttempt, hs, hn, CircuitBreaker.transitionToHalfOpen]
    | HALF_OPEN => exact absurd hs hne
  · intro hs hf hn
    rw [CircuitBreaker.executeBegin_open_probe cb now hs hn]
    exact ⟨rfl, rfl, rfl⟩

/-- Witness for C9: an `OPEN` breaker carrying a stale `true` flag from a
failed probe still admits the next probe once the timeout has elapsed. -/
theorem claim_c9_witness :
    (CircuitBreaker.executeBegin ⟨5, 15000, .OPEN, 5, 15100, true⟩ 15100).1 = true ∧
    (CircuitBreaker.executeBegin ⟨5, 15000, .OPEN, 5, 15100, true⟩ 15100).2.state
      = .HALF_OPEN := by
  refine ⟨?_, ?_⟩
  · exact ((claim_c9_half_open_entry ⟨5, 15000, .OPEN, 5, 15100, true⟩ 15100).2.2
      rfl rfl (by decide)).1
  · exact ((claim_c9_half_open_entry ⟨5, 15000, .OPEN, 5, 15100, true⟩ 15100).2.2
      rfl rfl (by decide)).2.1

/-- Claim C10 (implicit): a configured quota of `0` is falsy in JavaScript,
so `checkRateLimit` treats it exactly like `null`: the call is allowed,
the result carries no `limit` field, and neither `windowStart` nor `count`
is mutated — rather than rejecting every request as a literal reading of
`count >= limit` would. -/
theorem claim_c10_zero_quota (st : RateState) (now : Nat) :
    checkRateLimit (some 0) st now = (⟨true, none⟩, st) := rfl

/-- Within the current window, admissions increment `count` one by one and
are all allowed while the count stays at most the quota. -/
theorem admitSeq_within (l : Nat) (hl : 0 < l) :
    ∀ (ts : List Nat) (st : RateState),
      (∀ t ∈ ts, t - st.windowStart < 60000) →
      st.count + ts.length ≤ l →
      admitSeq (some l) st ts =
        (⟨st.windowStart, st.count + ts.length⟩, List.replicate ts.length true) := by
  intro ts
  induction ts with
  | nil => intro st hwin hcount; simp [admitSeq]
  | cons t ts ih =>
      intro st hwin hcount
      have hw : t - st.windowStart < 60000 := hwin t (List.mem_cons_self t ts)
      have hcnt : st.count < l := by
        simp only [List.length_cons] at hcount
        omega
      have hstep : checkRateLimit (some l) st t =
          (⟨true, some l⟩, ⟨st.windowStart, st.count + 1⟩) := by
        simp [checkRateLimit, Nat.pos_iff_ne_zero.mp hl, Nat.not_le.mpr hw,
          Nat.not_le.mpr hcnt]
      have hrec := ih ⟨st.windowStart, st.count + 1⟩
        (fun u hu => hwin u (List.mem_cons_of_mem t hu))
        (by simp only [List.length_cons] at hcount
            show st.count + 1 + ts.length ≤ l
            omega)
      simp only [admitSeq, hstep, hrec, List.length_cons, List.replicate_succ]
      have harith : st.count + 1 + ts.length = st.count + (ts.length + 1) := by omega
      simp [harith]

/-- Claim C5: for a quota `Q ≥ 1`, `checkRateLimit` first resets the window
when 60000 time units have elapsed, then rejects without mutation when
`count ≥ Q` and otherwise increments `count` by exactly one and allows; so
starting from a fresh window exactly `Q` in-window calls are admitted, the
next in-window call is rejected with no state change, and a call after the
window rolls over is admitted again; a `null` quota always allows without
touching any state. -/
theorem claim_c5_rate_limiter (l : Nat) (st : RateState) (ts : List Nat)
    (nowR nowE : Nat) (hl : 1 ≤ l) (hc : st.count = 0)
    (hwin : ∀ t ∈ ts, t - st.windowStart < 60000)
    (hlen : ts.length = l)
    (hnowR : nowR - st.windowStart < 60000)
    (hnowE : 60000 ≤ nowE - st.windowStart) :
    (∀ st2 n, checkRateLimit none st2 n = (⟨true, none⟩, st2)) ∧
    (∀ st2 n, 60000 ≤ n - st2.windowStart →
      checkRateLimit (some l) st2 n = (⟨true, some l⟩, ⟨n, 1⟩)) ∧
    (∀ st2 n, n - st2.windowStart < 60000 → l ≤ st2.count →
      checkRateLimit (some l) st2 n = (⟨false, some l⟩, st2)) ∧
    (∀ st2 n, n - st2.windowStart < 60000 → st2.count < l →
      checkRateLimit (some l) st2 n =
        (⟨true, some l⟩, ⟨st2.windowStart, st2.count + 1⟩)) ∧
    (admitSeq (some l) st ts = (⟨st.windowStart, l⟩, List.replicate l true)) ∧
    (checkRateLimit (some l) ⟨st.windowStart, l⟩ nowR
      = (⟨false, some l⟩, ⟨st.windowStart, l⟩)) ∧
    (checkRateLimit (some l) ⟨st.windowStart, l⟩ nowE = (⟨true, some l⟩, ⟨nowE, 1⟩)) := by
  have hl0 : l ≠ 0 := Nat.pos_iff_ne_zero.mp hl
  refine ⟨fun st2 n => rfl, ?_, ?_, ?_, ?_, ?_, ?_⟩
  · intro st2 n hn
    simp [checkRateLimit, hl0, hn, Nat.not_le.mpr hl]
  · intro st2 n hn hq
    simp [checkRateLimit, hl0, Nat.not_le.mpr hn, hq]
  · intro st2 n hn hq
    simp [checkRateLimit, hl0, Nat.not_le.mpr hn, Nat.not_le.mpr hq]
  · have h := admitSeq_within l hl ts st hwin (by omega)
    rw [h, hc, hlen]
    simp
  · simp [checkRateLimit, hl0, Nat.not_le.mpr hnowR]
  · simp [checkRateLimit, hl0, hnowE, Nat.not_le.mpr hl]

/-- Witness for C5: quota 3, fresh window at 0 — the three calls at times
5, 6, 7 are admitted, the fourth in-window call at time 8 is rejected with
the state untouched, and the call at time 60000 resets the window and is
admitted. -/
theorem claim_c5_witness :
    (admitSeq (some 3) ⟨0, 0⟩ [5, 6, 7] = (⟨0, 3⟩, [true, true, true])) ∧
    (checkRateLimit (some 3) ⟨0, 3⟩ 8 = (⟨false, some 3⟩, ⟨0, 3⟩)) ∧
    (checkRateLimit (some 3) ⟨0, 3⟩ 60000 = (⟨true, some 3⟩, ⟨60000, 1⟩)) := by
  have h := claim_c5_rate_limiter 3 ⟨0, 0⟩ [5, 6, 7] 8 60000 (by decide) rfl
    (by decide) rfl (by decide) (by decide)
  exact ⟨h.2.2.2.2.1, h.2.2.2.2.2.1, h.2.2.2.2.2.2⟩

/-- A fulfilled `execute` result can only come from a fulfilled operation
with the same payload. -/
theorem execute_result_ok {α ε : Type} (cb : CircuitBreaker) (n0 n1 : Nat)
    (op : Except ε α) (a : α)
    (h : (CircuitBreaker.execute cb n0 n1 op).result = .ok a) : op = .ok a := by
  rw [CircuitBreaker.execute_eq] at h
  cases hadm : (CircuitBreaker.executeBegin cb n0).1 <;> rw [hadm] at h <;>
    cases op <;> simp_all

/-- A propagated operation error can only be the original error of the
operation itself, re-thrown unchanged. -/
theorem execute_result_opError {α ε : Type} (cb : CircuitBreaker) (n0 n1 : Nat)
    (op : Except ε α) (e : ε)
    (h : (CircuitBreaker.execute cb n0 n1 op).result = .opError e) : op = .error e := by
  rw [CircuitBreaker.execute_eq] at h
  cases hadm : (CircuitBreaker.executeBegin cb n0).1 <;> rw [hadm] at h <;>
    cases op <;> simp_all

/-- Claim C6: the error surfaced by a breaker-guarded call is always the
original operation failure re-thrown unchanged, except when the breaker
itself rejected the call, which surfaces the distinct circuit-open result;
consequently each settled `handle` outcome is exactly one of the four
caller-distinguishable cases: success with the operation payload,
rate-limit rejection, circuit-open rejection, or the original downstream
failure.  (A task parked behind a full bulkhead settles later through the
same breaker call, covered by the first conjunct.) -/
theorem claim_c6_outcomes {α ε : Type} (limit : Option Nat) (st : RateState)
    (cb : CircuitBreaker) (bq : BulkheadQueue (Except ε α)) (now : Nat)
    (op : Except ε α) :
    (∀ cb2 n0 n1, (@CircuitBreaker.execute α ε cb2 n0 n1 op).result = .circuitOpen ∨
      (@CircuitBreaker.execute α ε cb2 n0 n1 op).result =
        (match op with
          | .ok a => .ok a
          | .error e => .opError e)) ∧
    ((handleReq limit st cb bq now op).outcome = none →
      (handleReq limit st cb bq now op).bulkhead.queue = bq.queue ++ [op]) ∧
    (∀ o, (handleReq limit st cb bq now op).outcome = some o →
      (∃ a, o = .success a ∧ op = .ok a) ∨
      (∃ lim, o = .rateLimited lim) ∨
      o = .circuitOpenRejected ∨
      (∃ e, o = .opFailure e ∧ op = .error e)) := by
  refine ⟨?_, ?_, ?_⟩
  · intro cb2 n0 n1
    rw [CircuitBreaker.execute_eq]
    cases hadm : (CircuitBreaker.executeBegin cb2 n0).1
    · simp
    · cases op <;> simp
  · intro hnone
    by_cases hall : (checkRateLimit limit st now).1.allowed
    · by_cases hrun : bq.active < bq.poolSize
      · exfalso
        simp [handleReq, hall, BulkheadQueue.run, hrun] at hnone
      · simp [handleReq, hall, BulkheadQueue.run, hrun]
    · exfalso
      simp [handleReq, hall] at hnone
  · intro o ho
    by_cases hall : (checkRateLimit limit st now).1.allowed
    · by_cases hrun : bq.active < bq.poolSize
      · simp only [handleReq, hall, if_true, BulkheadQueue.run, hrun, if_pos,
          Option.some.injEq] at ho
        cases hres : (CircuitBreaker.execute cb now now op).result with
        | ok a =>
            refine Or.inl ⟨a, ?_, execute_result_ok cb now now op a hres⟩
            rw [hres] at ho
            exact ho.symm
        | circuitOpen =>
            refine Or.inr (Or.inr (Or.inl ?_))
            rw [hres] at ho
            exact ho.symm
        | opError e =>
            refine Or.inr (Or.inr (Or.inr
              ⟨e, ?_, execute_result_opError cb now now op e hres⟩))
            rw [hres] at ho
            exact ho.symm
      · exfalso
        simp [handleReq, hall, BulkheadQueue.run, hrun] at ho
    · refine Or.inr (Or.inl ⟨(checkRateLimit limit st now).1.limit, ?_⟩)
      simp [handleReq, hall] at ho
      exact ho.symm

/-- Witness for C6: through a free-slot bulkhead with no rate limit and a
closed breaker, an operation that fails with error 7 surfaces exactly the
`opFailure 7` outcome, the original error. -/
theorem claim_c6_witness :
    (handleReq (α := Nat) (ε := Nat) none ⟨0, 0⟩ (CircuitBreaker.mk0 none none)
        (BulkheadQueue.mk0 (Except Nat Nat) 2) 5 (Except.error 7)).outcome
      = some (.opFailure 7) ∧
    ((∃ a, (HandleOutcome.opFailure (α := Nat) 7) = .success a ∧
        (Except.error (α := Nat) (ε := Nat) 7) = .ok a) ∨
      (∃ lim, (HandleOutcome.opFailure (α := Nat) (ε := Nat) 7) = .rateLimited lim) ∨
      (HandleOutcome.opFailure (α := Nat) (ε := Nat) 7) = .circuitOpenRejected ∨
      (∃ e, (HandleOutcome.opFailure (α := Nat) (ε := Nat) 7) = .opFailure e ∧
        (Except.error (α := Nat) (ε := Nat) 7) = .error e)) := by
  constructor
  · decide
  · exact (claim_c6_outcomes (α := Nat) (ε := Nat) none ⟨0, 0⟩
      (CircuitBreaker.mk0 none none) (BulkheadQueue.mk0 (Except Nat Nat) 2) 5
      (Except.error 7)).2.2 (HandleOutcome.opFailure 7) (by decide)

/-- Claim C8: a request rejected by the rate limiter returns the rate-limit
failure with the tier breaker (state, failures, nextAttempt,
halfOpenInFlight) and bulkhead (active, queue) exactly as they were, and
the protected operation is never invoked. -/
theorem claim_c8_rate_reject_frame {α ε : Type} (limit : Option Nat) (st : RateState)
    (cb : CircuitBreaker) (bq : BulkheadQueue (Except ε α)) (now : Nat)
    (op : Except ε α)
    (hrej : (checkRateLimit limit st now).1.allowed = false) :
    handleReq limit st cb bq now op =
      ⟨some (.rateLimited (checkRateLimit limit st now).1.limit),
        (checkRateLimit limit st now).2, cb, bq, false⟩ := by
  simp [handleReq, hrej]

/-- Witness for C8: the free tier at its quota rejects with 429 and both
the circuit breaker and the bulkhead come back exactly unchanged. -/
theorem claim_c8_witness :
    (handleReq (α := Nat) (ε := Nat) (some 1) ⟨0, 1⟩ (CircuitBreaker.mk0 none none)
        (BulkheadQueue.mk0 (Except Nat Nat) 2) 5 (Except.ok 42)).outcome
      = some (.rateLimited (some 1)) ∧
    (handleReq (α := Nat) (ε := Nat) (some 1) ⟨0, 1⟩ (CircuitBreaker.mk0 none none)
        (BulkheadQueue.mk0 (Except Nat Nat) 2) 5 (Except.ok 42)).breaker
      = CircuitBreaker.mk0 none none ∧
    (handleReq (α := Nat) (ε := Nat) (some 1) ⟨0, 1⟩ (CircuitBreaker.mk0 none none)
        (BulkheadQueue.mk0 (Except Nat Nat) 2) 5 (Except.ok 42)).bulkhead
      = BulkheadQueue.mk0 (Except Nat Nat) 2 ∧
    (handleReq (α := Nat) (ε := Nat) (some 1) ⟨0, 1⟩ (CircuitBreaker.mk0 none none)
        (BulkheadQueue.mk0 (Except Nat Nat) 2) 5 (Except.ok 42)).invokedOp = false := by
  have h := claim_c8_rate_reject_frame (α := Nat) (ε := Nat) (some 1) ⟨0, 1⟩
    (CircuitBreaker.mk0 none none) (BulkheadQueue.mk0 (Except Nat Nat) 2) 5
    (Except.ok 42) (by decide)
  rw [h]
  exact ⟨rfl, rfl, rfl, rfl⟩

/-! ## Bulkhead queue lemmas -/

/-- A submission with a free slot starts immediately. -/
theorem run_immediate {τ : Type} (b : BulkheadQueue τ) (t : τ)
    (hr : b.active < b.poolSize) :
    BulkheadQueue.run b t = ({ b with active := b.active + 1 }, some t) := by
  simp [BulkheadQueue.run, hr]

/-- A submission with no free slot is appended to the back of the queue. -/
theorem run_queued {τ : Type} (b : BulkheadQueue τ) (t : τ)
    (hr : b.poolSize ≤ b.active) :
    BulkheadQueue.run b t = ({ b with queue := b.queue ++ [t] }, none) := by
  simp [BulkheadQueue.run, Nat.not_lt.mpr hr]

/-- Completion with nothing pending only decrements the counter. -/
theorem complete_nil {τ : Type} (b : BulkheadQueue τ) (hq : b.queue = []) :
    BulkheadQueue.complete b = ({ b with active := b.active - 1 }, none) := by
  simp [BulkheadQueue.complete, BulkheadQueue.dequeue, hq]

/-- Completion with a pending head and a free slot after the decrement
starts exactly the head. -/
theorem complete_pop {τ : Type} (b : BulkheadQueue τ) (x : τ) (rest : List τ)
    (hq : b.queue = x :: rest) (hfree : b.active - 1 < b.poolSize) :
    BulkheadQueue.complete b =
      ({ b with active := b.active - 1 + 1, queue := rest }, some x) := by
  simp [BulkheadQueue.complete, BulkheadQueue.dequeue, hq, Nat.not_le.mpr hfree]

/-- Completion while the pool stays saturated leaves the queue alone. -/
theorem complete_saturated {τ : Type} (b : BulkheadQueue τ) (x : τ) (rest : List τ)
    (hq : b.queue = x :: rest) (hful : b.poolSize ≤ b.active - 1) :
    BulkheadQueue.complete b = ({ b with active := b.active - 1 }, none) := by
  simp [BulkheadQueue.complete, BulkheadQueue.dequeue, hq, hful]

/-- One step preserves the bulkhead invariant. -/
theorem stepB_inv {τ : Type} (b : BulkheadQueue τ) (e : BulkheadQueue.BEvent τ)
    (h : BulkheadQueue.Inv b) : BulkheadQueue.Inv (BulkheadQueue.stepB b e).1 := by
  obtain ⟨h1, h2⟩ := h
  cases e with
  | submit t =>
      by_cases hr : b.active < b.poolSize
      · rw [BulkheadQueue.stepB, run_immediate b t hr]
        refine ⟨?_, fun hq => ?_⟩
        · show b.active + 1 ≤ b.poolSize
          omega
        · exact absurd (h2 hq) (by omega)
      · rw [BulkheadQueue.stepB, run_queued b t (Nat.not_lt.mp hr)]
        refine ⟨h1, fun _ => ?_⟩
        show b.active = b.poolSize
        omega
  | complete =>
      cases hq : b.queue with
      | nil =>
          rw [BulkheadQueue.stepB, complete_nil b hq]
          refine ⟨?_, fun hne => absurd hq hne⟩
          show b.active - 1 ≤ b.poolSize
          omega
      | cons x rest =>
          have hsat : b.active = b.poolSize := h2 (by simp [hq])
          by_cases hful : b.poolSize ≤ b.active - 1
          · rw [BulkheadQueue.stepB, complete_saturated b x rest hq hful]
            refine ⟨?_, fun _ => ?_⟩
            · show b.active - 1 ≤ b.poolSize
              omega
            · show b.active - 1 = b.poolSize
              omega
          · rw [BulkheadQueue.stepB, complete_pop b x rest hq (Nat.not_le.mp hful)]
            refine ⟨?_, fun _ => ?_⟩
            · show b.active - 1 + 1 ≤ b.poolSize
              omega
            · show b.active - 1 + 1 = b.poolSize
              omega

/-- A step never changes the pool size. -/
theorem stepB_poolSize {τ : Type} (b : BulkheadQueue τ) (e : BulkheadQueue.BEvent τ) :
    (BulkheadQueue.stepB b e).1.poolSize = b.poolSize := by
  cases e with
  | submit t =>
      by_cases hr : b.active < b.poolSize
      · rw [BulkheadQueue.stepB, run_immediate b t hr]
      · rw [BulkheadQueue.stepB, run_queued b t (Nat.not_lt.mp hr)]
  | complete =>
      cases hq : b.queue with
      | nil => rw [BulkheadQueue.stepB, complete_nil b hq]
      | cons x rest =>
          by_cases hful : b.poolSize ≤ b.active - 1
          · rw [BulkheadQueue.stepB, complete_saturated b x rest hq hful]
          · rw [BulkheadQueue.stepB, complete_pop b x rest hq (Nat.not_le.mp hful)]

/-- A trace never changes the pool size. -/
theorem runTrace_poolSize {τ : Type} :
    ∀ (es : List (BulkheadQueue.BEvent τ)) (b : BulkheadQueue τ),
      (BulkheadQueue.runTrace b es).1.poolSize = b.poolSize := by
  intro es
  induction es with
  | nil => intro b; rfl
  | cons e es ih =>
      intro b
      show (BulkheadQueue.runTrace (BulkheadQueue.stepB b e).1 es).1.poolSize = b.poolSize
      rw [ih (BulkheadQueue.stepB b e).1, stepB_poolSize]

/-- The invariant holds along every trace. -/
theorem runTrace_inv {τ : Type} :
    ∀ (es : List (BulkheadQueue.BEvent τ)) (b : BulkheadQueue τ),
      BulkheadQueue.Inv b → BulkheadQueue.Inv (BulkheadQueue.runTrace b es).1 := by
  intro es
  induction es with
  | nil => intro b h; exact h
  | cons e es ih =>
      intro b h
      exact ih _ (stepB_inv b e h)

/-- Unfolding one trace step. -/
theorem runTrace_cons {τ : Type} (b : BulkheadQueue τ) (e : BulkheadQueue.BEvent τ)
    (es : List (BulkheadQueue.BEvent τ)) :
    BulkheadQueue.runTrace b (e :: es) =
      ((BulkheadQueue.runTrace (BulkheadQueue.stepB b e).1 es).1,
        (BulkheadQueue.stepB b e).2.toList ++
          (BulkheadQueue.runTrace (BulkheadQueue.stepB b e).1 es).2) := rfl

/-- FIFO bookkeeping: tasks started so far followed by the tasks still
pending are exactly the prior queue followed by the submissions, in
order. -/
theorem runTrace_fifo {τ : Type} :
    ∀ (es : List (BulkheadQueue.BEvent τ)) (b : BulkheadQueue τ),
      BulkheadQueue.Inv b →
      (BulkheadQueue.runTrace b es).2 ++ (BulkheadQueue.runTrace b es).1.queue
        = b.queue ++ BulkheadQueue.submits es := by
  intro es
  induction es with
  | nil => intro b h; simp [BulkheadQueue.runTrace, BulkheadQueue.submits]
  | cons e es ih =>
      intro b h
      have hrec := ih (BulkheadQueue.stepB b e).1 (stepB_inv b e h)
      rw [runTrace_cons, List.append_assoc]
      simp only
      rw [hrec]
      cases e with
      | submit t =>
          by_cases hr : b.active < b.poolSize
          · have hq : b.queue = [] := by
              by_contra hq
              exact absurd (h.2 hq) (by omega)
            rw [BulkheadQueue.stepB, run_immediate b t hr]
            simp [hq, BulkheadQueue.submits]
          · rw [BulkheadQueue.stepB, run_queued b t (Nat.not_lt.mp hr)]
            simp [BulkheadQueue.submits]
      | complete =>
          cases hq : b.queue with
          | nil =>
              rw [BulkheadQueue.stepB, complete_nil b hq]
              simp [hq, BulkheadQueue.submits]
          | cons x rest =>
              by_cases hful : b.poolSize ≤ b.active - 1
              · rw [BulkheadQueue.stepB, complete_saturated b x rest hq hful]
                simp [hq, BulkheadQueue.submits]
              · rw [BulkheadQueue.stepB, complete_pop b x rest hq (Nat.not_le.mp hful)]
                simp [hq, BulkheadQueue.submits]

/-- Claim C4: at any point of any execution trace at most `poolSize` tasks
are active; a task submitted with a free slot starts immediately and
otherwise is appended to the pending queue; each completion decrements the
active counter exactly once and dequeues exactly the pending head when a
slot is free (and nothing otherwise); and tasks start in strict FIFO
submission order — the started tasks are a prefix of the submissions,
the remainder being exactly the still-pending queue. -/
theorem claim_c4_bulkhead (n : Nat) (es1 es2 : List (BulkheadQueue.BEvent Nat))
    (b : BulkheadQueue Nat) (t x : Nat) (rest : List Nat)
    (hv : BulkheadQueue.validTrace (BulkheadQueue.mk0 Nat n) (es1 ++ es2) = true) :
    ((BulkheadQueue.runTrace (BulkheadQueue.mk0 Nat n) es1).1.active ≤ n) ∧
    (b.active < b.poolSize →
      BulkheadQueue.run b t = ({ b with active := b.active + 1 }, some t)) ∧
    (b.poolSize ≤ b.active →
      BulkheadQueue.run b t = ({ b with queue := b.queue ++ [t] }, none)) ∧
    (1 ≤ b.active → b.queue = [] →
      BulkheadQueue.complete b = ({ b with active := b.active - 1 }, none)) ∧
    (1 ≤ b.active → b.queue = x :: rest → b.active - 1 < b.poolSize →
      BulkheadQueue.complete b =
        ({ b with active := b.active - 1 + 1, queue := rest }, some x)) ∧
    (1 ≤ b.active → b.queue = x :: rest → b.poolSize ≤ b.active - 1 →
      BulkheadQueue.complete b = ({ b with active := b.active - 1 }, none)) ∧
    (∃ rem,
      BulkheadQueue.submits (es1 ++ es2)
        = (BulkheadQueue.runTrace (BulkheadQueue.mk0 Nat n) (es1 ++ es2)).2 ++ rem ∧
      rem = (BulkheadQueue.runTrace (BulkheadQueue.mk0 Nat n) (es1 ++ es2)).1.queue) := by
  have hinv0 : BulkheadQueue.Inv (BulkheadQueue.mk0 Nat n) :=
    ⟨Nat.zero_le n, fun hne => absurd rfl hne⟩
  refine ⟨?_, ?_, ?_, ?_, ?_, ?_, ?_⟩
  · have hinv := (runTrace_inv es1 (BulkheadQueue.mk0 Nat n) hinv0).1
    rw [runTrace_poolSize es1 (BulkheadQueue.mk0 Nat n)] at hinv
    exact hinv
  · exact fun hr => run_immediate b t hr
  · exact fun hr => run_queued b t hr
  · exact fun _ hq => complete_nil b hq
  · exact fun _ hq hfree => complete_pop b x rest hq hfree
  · exact fun _ hq hful => complete_saturated b x rest hq hful
  · refine ⟨(BulkheadQueue.runTrace (BulkheadQueue.mk0 Nat n) (es1 ++ es2)).1.queue,
      ?_, rfl⟩
    have h := runTrace_fifo (es1 ++ es2) (BulkheadQueue.mk0 Nat n) hinv0
    simpa using h.symm

/-- Witness for C4: pool size 2, three submissions then three completions —
never more than 2 active after the submissions, a submission to a
saturated queue is parked at the back, completion pops exactly the queued
head, and the tasks start in submission order with nothing left pending. -/
theorem claim_c4_witness :
    ((BulkheadQueue.runTrace (BulkheadQueue.mk0 Nat 2)
        [.submit 1, .submit 2, .submit 3]).1.active ≤ 2) ∧
    (BulkheadQueue.run (⟨2, 2, [9]⟩ : BulkheadQueue Nat) 4
      = (⟨2, 2, [9, 4]⟩, none)) ∧
    (BulkheadQueue.complete (⟨2, 2, [9]⟩ : BulkheadQueue Nat) = (⟨2, 2, []⟩, some 9)) ∧
    (∃ rem,
      BulkheadQueue.submits
          ([.submit 1, .submit 2, .submit 3] ++ [.complete, .complete, .complete])
        = (BulkheadQueue.runTrace (BulkheadQueue.mk0 Nat 2)
            ([.submit 1, .submit 2, .submit 3] ++ [.complete, .complete, .complete])).2
          ++ rem ∧
      rem = (BulkheadQueue.runTrace (BulkheadQueue.mk0 Nat 2)
          ([.submit 1, .submit 2, .submit 3]
            ++ [.complete, .complete, .complete])).1.queue) := by
  have h := claim_c4_bulkhead 2 [.submit 1, .submit 2, .submit 3]
    [.complete, .complete, .complete] (⟨2, 2, [9]⟩ : BulkheadQueue Nat) 4 9 []
    (by decide)
  refine ⟨h.1, ?_, ?_, h.2.2.2.2.2.2⟩
  · exact h.2.2.1 (by decide)
  · exact h.2.2.2.2.1 (by decide) rfl (by decide)

end Bulkhead
